import Mathlib

/-!
Shallow embedding of the document-to-B-tree binding layer of
`src/rdb_protocol/btree.cc` (RethinkDB), together with proofs about the
point-mutation executors (`rdb_set`, `rdb_delete`,
`rdb_replace_and_return_superblock`), the batched-replace ordering protocol,
secondary-index maintenance (`rdb_update_single_sindex`, `compute_keys`),
range erase (`rdb_erase_range`), the range-scan batching callback
(`rdb_rget_depth_first_traversal_callback_t::handle_pair` / `rdb_rget_slice`),
and the distribution sampler (`rdb_distribution_get`).

Documents (`ql::datum_t`) are modelled as a first-order tree; raw value slots
(the on-disk bytes produced by `serialize_onto_blob`, an external collaborator
of this file) are modelled as character lists produced by an abstract
serializer whose only properties used by the code under verification are
non-emptiness and determinism.  Fatal assertions (`guarantee`, which crash the
process) are modelled as the `Except.error` channel of the embedded
functions; query-language exceptions (`ql::base_exc_t`, which the code
catches) are modelled at each catch site following the source control flow.
-/

/-- Model of `ql::datum_t`: an immutable tree of typed values.  Numbers are
modelled as integers (no claim under verification depends on float
semantics); objects are field lists looked up by name. -/
inductive Datum where
  | null
  | bool (b : Bool)
  | num (n : Int)
  | str (s : String)
  | arr (elems : List Datum)
  | obj (fields : List (String × Datum))

mutual

/-- Structural equality of datums, mirroring `datum_t::operator==`
(structural comparison; the comparison lives in `datum.cc`, outside the
source file, and is modelled from the spec: documents are compared
structurally). -/
def Datum.beq : Datum → Datum → Bool
  | .null, .null => true
  | .bool a, .bool b => a == b
  | .num a, .num b => a == b
  | .str a, .str b => a == b
  | .arr as, .arr bs => Datum.beqList as bs
  | .obj as, .obj bs => Datum.beqFields as bs
  | _, _ => false

/-- Elementwise structural equality of datum arrays. -/
def Datum.beqList : List Datum → List Datum → Bool
  | [], [] => true
  | a :: as, b :: bs => Datum.beq a b && Datum.beqList as bs
  | _, _ => false

/-- Fieldwise structural equality of datum objects. -/
def Datum.beqFields : List (String × Datum) → List (String × Datum) → Bool
  | [], [] => true
  | (k1, v1) :: as, (k2, v2) :: bs => k1 == k2 && Datum.beq v1 v2 && Datum.beqFields as bs
  | _, _ => false

end

mutual

theorem Datum.beq_iff : ∀ a b : Datum, Datum.beq a b = true ↔ a = b
  | .null, .null => by simp [Datum.beq]
  | .bool _, .bool _ => by simp [Datum.beq]
  | .num _, .num _ => by simp [Datum.beq]
  | .str _, .str _ => by simp [Datum.beq]
  | .arr as, .arr bs => by simp [Datum.beq, Datum.beqList_iff as bs]
  | .obj as, .obj bs => by simp [Datum.beq, Datum.beqFields_iff as bs]
  | .null, .bool _ => by simp [Datum.beq]
  | .null, .num _ => by simp [Datum.beq]
  | .null, .str _ => by simp [Datum.beq]
  | .null, .arr _ => by simp [Datum.beq]
  | .null, .obj _ => by simp [Datum.beq]
  | .bool _, .null => by simp [Datum.beq]
  | .bool _, .num _ => by simp [Datum.beq]
  | .bool _, .str _ => by simp [Datum.beq]
  | .bool _, .arr _ => by simp [Datum.beq]
  | .bool _, .obj _ => by simp [Datum.beq]
  | .num _, .null => by simp [Datum.beq]
  | .num _, .bool _ => by simp [Datum.beq]
  | .num _, .str _ => by simp [Datum.beq]
  | .num _, .arr _ => by simp [Datum.beq]
  | .num _, .obj _ => by simp [Datum.beq]
  | .str _, .null => by simp [Datum.beq]
  | .str _, .bool _ => by simp [Datum.beq]
  | .str _, .num _ => by simp [Datum.beq]
  | .str _, .arr _ => by simp [Datum.beq]
  | .str _, .obj _ => by simp [Datum.beq]
  | .arr _, .null => by simp [Datum.beq]
  | .arr _, .bool _ => by simp [Datum.beq]
  | .arr _, .num _ => by simp [Datum.beq]
  | .arr _, .str _ => by simp [Datum.beq]
  | .arr _, .obj _ => by simp [Datum.beq]
  | .obj _, .null => by simp [Datum.beq]
  | .obj _, .bool _ => by simp [Datum.beq]
  | .obj _, .num _ => by simp [Datum.beq]
  | .obj _, .str _ => by simp [Datum.beq]
  | .obj _, .arr _ => by simp [Datum.beq]

theorem Datum.beqList_iff : ∀ as bs : List Datum, Datum.beqList as bs = true ↔ as = bs
  | [], [] => by simp [Datum.beqList]
  | [], _ :: _ => by simp [Datum.beqList]
  | _ :: _, [] => by simp [Datum.beqList]
  | a :: as, b :: bs => by
      simp [Datum.beqList, Datum.beq_iff a b, Datum.beqList_iff as bs]

theorem Datum.beqFields_iff :
    ∀ as bs : List (String × Datum), Datum.beqFields as bs = true ↔ as = bs
  | [], [] => by simp [Datum.beqFields]
  | [], _ :: _ => by simp [Datum.beqFields]
  | _ :: _, [] => by simp [Datum.beqFields]
  | (_, v1) :: as, (_, v2) :: bs => by
      simp [Datum.beqFields, Datum.beq_iff v1 v2, Datum.beqFields_iff as bs, and_assoc]

end

instance : DecidableEq Datum := fun a b =>
  decidable_of_iff (Datum.beq a b = true) (Datum.beq_iff a b)

/-- Model of `datum_t::get(name, NOTHROW)`: field lookup on an object datum,
`none` when the field is missing or the datum is not an object. -/
def Datum.get : Datum → String → Option Datum
  | .obj fields, name => (fields.find? (fun p => p.1 == name)).map (·.2)
  | _, _ => none

/-- True exactly when the datum has type `R_OBJECT`. -/
def Datum.isObject : Datum → Bool
  | .obj _ => true
  | _ => false

/-- One-character type tag used by the abstract value codec. -/
def Datum.tag : Datum → Char
  | .null => 'N'
  | .bool _ => 'B'
  | .num _ => 'I'
  | .str _ => 'S'
  | .arr _ => 'A'
  | .obj _ => 'O'

/-- Modelled from the spec: `print_primary` (in `datum.cc`, outside the
source file) renders a primary-key datum as a key string; it is defined for
the key types string, number and boolean and throws (here: `none`) for
null, arrays and objects. -/
def printPrimary : Datum → Option String
  | .str s => some ("S" ++ s)
  | .num n => some ("N" ++ toString n)
  | .bool b => some (if b then "BT" else "BF")
  | _ => none

/-- Modelled from the spec: the value codec (`serialize_onto_blob` plus the
blob subsystem, external collaborators).  Only non-emptiness and determinism
of the encoded bytes are relied on by the code under verification; the
payload beyond the leading type tag is abstracted. -/
def serializeDatum (d : Datum) : List Char :=
  Datum.tag d ::
    match d with
    | .null => []
    | .bool b => [if b then 'T' else 'F']
    | .num n => (toString n).data
    | .str s => s.data
    | .arr elems => elems.map Datum.tag
    | .obj fields => (fields.map (fun p => p.1.data)).flatten

theorem serializeDatum_ne_nil (d : Datum) : serializeDatum d ≠ [] := by
  simp [serializeDatum]

/-- Model of `rdb_modification_info_t`: the before/after documents together
with the before/after raw slot bytes. -/
structure ModInfo where
  deleted : Option Datum × List Char
  added : Option Datum × List Char
deriving DecidableEq

/-- A freshly default-constructed modification info: both slots empty. -/
def ModInfo.empty : ModInfo := ⟨(none, []), (none, [])⟩

/-- Model of `rdb_modification_report_t`: primary key plus modification info. -/
structure ModReport where
  primary_key : String
  info : ModInfo
deriving DecidableEq

/-- Model of `kv_location_delete`: requires the slot to hold a value
(`guarantee(kv_location->value.has())`, fatal otherwise); when a modification
info is supplied, requires its deleted bytes to be empty (fatal otherwise)
and records the detached raw bytes of the old value; clears the slot.
Returns the new slot content and the updated modification info. -/
def kv_location_delete (value : Option Datum) (mod_info_out : Option ModInfo) :
    Except String (Option Datum × Option ModInfo) :=
  match value with
  | none => .error "guarantee failed: kv_location value has"
  | some v =>
    match mod_info_out with
    | none => .ok (none, none)
    | some mi =>
      if mi.deleted.2 = [] then
        .ok (none, some { mi with deleted := (mi.deleted.1, serializeDatum v) })
      else
        .error "guarantee failed: mod_info deleted bytes not empty"

/-- Model of `kv_location_set` (datum overload): encodes the new document
into a fresh slot; when a modification info is supplied, records the new raw
bytes as added (requiring the added bytes to be empty, fatal otherwise) and,
when the slot previously held a value, detaches it and records its raw bytes
as deleted (requiring the deleted bytes to be empty, fatal otherwise);
installs the new value.  Returns the new slot content and the updated
modification info. -/
def kv_location_set (value : Option Datum) (data : Datum)
    (mod_info_out : Option ModInfo) :
    Except String (Option Datum × Option ModInfo) :=
  let step1 : Except String (Option ModInfo) :=
    match mod_info_out with
    | none => .ok none
    | some mi =>
      if mi.added.2 = [] then
        .ok (some { mi with added := (mi.added.1, serializeDatum data) })
      else
        .error "guarantee failed: mod_info added bytes not empty"
  match step1 with
  | .error e => .error e
  | .ok mi1 =>
    match value, mi1 with
    | some oldv, some mi =>
      if mi.deleted.2 = [] then
        .ok (some data, some { mi with deleted := (mi.deleted.1, serializeDatum oldv) })
      else
        .error "guarantee failed: mod_info deleted bytes not empty"
    | _, mi => .ok (some data, mi)

deriving instance DecidableEq for Except

/-- Model of `point_write_result_t`. -/
inductive PointWriteResult where
  | STORED
  | DUPLICATE
deriving DecidableEq

/-- Model of `point_delete_result_t`. -/
inductive PointDeleteResult where
  | DELETED
  | MISSING
deriving DecidableEq

/-- Model of `rdb_set` acting on the slot of `key`: `value` is the current
slot content found by `find_keyvalue_location_for_write` and `mod_info` the
caller-supplied modification info.  Mirrors the source: the deleted document
(when present) and the added document are recorded in the modification info
before the overwrite test; the slot is written only when `overwrite` holds or
no value was present; the result is `DUPLICATE` exactly when a value was
present.  Returns the result, the new slot content, and the modification
info. -/
def rdb_set (data : Datum) (overwrite : Bool)
    (value : Option Datum) (mod_info : ModInfo) :
    Except String (PointWriteResult × Option Datum × ModInfo) :=
  let had_value := value.isSome
  let mi :=
    match value with
    | some oldv => { mod_info with deleted := (some oldv, mod_info.deleted.2) }
    | none => mod_info
  let mi := { mi with added := (some data, mi.added.2) }
  let afterWrite : Except String (Option Datum × ModInfo) :=
    if overwrite || !had_value then
      match kv_location_set value data (some mi) with
      | .error e => .error e
      | .ok (v2, mi2) =>
        let mi2 := mi2.getD ModInfo.empty
        if (mi2.deleted.2 = []) = (had_value = false) ∧ mi2.added.2 ≠ [] then
          .ok (v2, mi2)
        else
          .error "guarantee failed: rdb_set mod_info shape"
    else
      .ok (value, mi)
  match afterWrite with
  | .error e => .error e
  | .ok (v2, mi2) =>
    .ok (if had_value then .DUPLICATE else .STORED, v2, mi2)

/-- Model of `rdb_delete` acting on the slot of `key`.  Mirrors the source:
when a value exists it is recorded as the deleted document and the slot is
cleared through `kv_location_delete`; then — unconditionally, also on the
missing path — the source runs
`guarantee(!mod_info->deleted.second.empty() && mod_info->added.second.empty())`,
modelled here as the same check on both paths.  Returns the result, the new
slot content, and the modification info. -/
def rdb_delete (value : Option Datum) (mod_info : ModInfo) :
    Except String (PointDeleteResult × Option Datum × ModInfo) :=
  let exists_ := value.isSome
  let afterDelete : Except String (Option Datum × ModInfo) :=
    match value with
    | some v =>
      let mi := { mod_info with deleted := (some v, mod_info.deleted.2) }
      match kv_location_delete value (some mi) with
      | .error e => .error e
      | .ok (v2, mi2) => .ok (v2, mi2.getD ModInfo.empty)
    | none => .ok (value, mod_info)
  match afterDelete with
  | .error e => .error e
  | .ok (v2, mi2) =>
    if mi2.deleted.2 ≠ [] ∧ mi2.added.2 = [] then
      .ok (if exists_ then .DELETED else .MISSING, v2, mi2)
    else
      .error "guarantee failed: rdb_delete mod_info shape"

/-- Status counter added to the response object of one replace (the source
adds `skipped`, `inserted`, `deleted`, `unchanged` or `replaced` with
count 1 to the response datum). -/
inductive ReplaceStatus where
  | skipped
  | inserted
  | deleted
  | replaced
  | unchanged
deriving DecidableEq

/-- The response of one replace: either a status counter or an error entry
(the source catches `ql::base_exc_t` and records its message through
`resp.add_error`). -/
inductive ReplaceResp where
  | stat (s : ReplaceStatus)
  | errorResp (msg : String)
deriving DecidableEq

/-- The B-tree write performed by one replace, when any. -/
inductive WriteOp where
  | setOp (d : Datum)
  | deleteOp
deriving DecidableEq

/-- Everything one `rdb_replace_and_return_superblock` produces: the response,
the write it performed (if any), and the modification info it filled in. -/
structure ReplaceOutcome where
  resp : ReplaceResp
  write : Option WriteOp
  modInfo : ModInfo
deriving DecidableEq

/-- Model of `rdb_replace_and_return_superblock` for one key.  `primary_key`
is the table primary-key field name, `key` the operation key (compared
against the printed primary key of the new document), `stored` the current
slot content, `replacer` the replace function.  Control flow mirrors the
source: decode the old value (`R_NULL` when absent; the stored document must
contain the primary-key field, a fatal guarantee); call the replacer; type
dispatch on the new value with validation (`rcheck_valid_replace` is
modelled from the spec: the inserted object must carry the primary-key
field); classify by started/ended emptiness and structural equality; caught
`ql` validation errors become an error response with no write and an empty
modification info (they are all raised before any write). -/
def rdb_replace_and_return_superblock (primary_key : String) (key : String)
    (stored : Option Datum) (replacer : Datum → Datum) :
    Except String ReplaceOutcome :=
  let started_empty := stored.isNone
  let old_val := stored.getD Datum.null
  if started_empty = false ∧ (old_val.get primary_key).isNone then
    .error "guarantee failed: stored document has no primary key field"
  else
    let new_val := replacer old_val
    -- Type dispatch and validation; `.error msg` here models a thrown
    -- `ql::base_exc_t` that the catch at the bottom of the source function
    -- turns into an error response.
    let validated : Except String Bool :=
      if new_val = Datum.null then
        .ok true
      else if new_val.isObject then
        match new_val.get primary_key with
        | none => .error "Inserted object must have primary key"
        | some pkd =>
          if printPrimary pkd = some key then .ok false
          else .error "Primary key cannot be changed"
      else
        .error "Inserted value must be an OBJECT"
    match validated with
    | .error msg => .ok { resp := .errorResp msg, write := none, modInfo := ModInfo.empty }
    | .ok ended_empty =>
      if started_empty then
        if ended_empty then
          .ok { resp := .stat .skipped, write := none, modInfo := ModInfo.empty }
        else
          match kv_location_set stored new_val (some ModInfo.empty) with
          | .error e => .error e
          | .ok (_, miOut) =>
            let mi := miOut.getD ModInfo.empty
            if mi.deleted.2 = [] ∧ mi.added.2 ≠ [] then
              .ok { resp := .stat .inserted, write := some (.setOp new_val),
                    modInfo := { mi with added := (some new_val, mi.added.2) } }
            else
              .error "guarantee failed: inserted mod_info shape"
      else
        if ended_empty then
          match kv_location_delete stored (some ModInfo.empty) with
          | .error e => .error e
          | .ok (_, miOut) =>
            let mi := miOut.getD ModInfo.empty
            if mi.deleted.2 ≠ [] ∧ mi.added.2 = [] then
              .ok { resp := .stat .deleted, write := some .deleteOp,
                    modInfo := { mi with deleted := (some old_val, mi.deleted.2) } }
            else
              .error "guarantee failed: deleted mod_info shape"
        else
          -- r_sanity_check: the primary-key field itself must be unchanged
          -- (throws a ql exception, caught into the error response).
          if old_val.get primary_key ≠ new_val.get primary_key then
            .ok { resp := .errorResp "sanity check failed: primary key field changed",
                  write := none, modInfo := ModInfo.empty }
          else if old_val = new_val then
            .ok { resp := .stat .unchanged, write := none, modInfo := ModInfo.empty }
          else
            match kv_location_set stored new_val (some ModInfo.empty) with
            | .error e => .error e
            | .ok (_, miOut) =>
              let mi := miOut.getD ModInfo.empty
              if mi.deleted.2 ≠ [] ∧ mi.added.2 ≠ [] then
                .ok { resp := .stat .replaced, write := some (.setOp new_val),
                      modInfo := { mi with added := (some new_val, mi.added.2),
                                           deleted := (some old_val, mi.deleted.2) } }
              else
                .error "guarantee failed: replaced mod_info shape"

/-- Model of `do_a_replace_from_batched_replace` for one key of a batch: runs
the replace, merges the response into the aggregate stats, and then —
unconditionally, whatever the transition was — hands the modification report
to the sindex callback (`sindex_cb->on_mod_report(mod_report)`).  The second
component is the list of reports delivered downstream to secondary-index
maintenance by this step. -/
def do_a_replace_from_batched_replace (primary_key : String) (key : String)
    (stored : Option Datum) (replacer : Datum → Datum) :
    Except String (ReplaceOutcome × List ModReport) :=
  match rdb_replace_and_return_superblock primary_key key stored replacer with
  | .error e => .error e
  | .ok outcome => .ok (outcome, [{ primary_key := key, info := outcome.modInfo }])

/-- Modelled from the spec: a secondary-index key is the composite
`print_secondary(indexed_value, primary_key[, tag])` — an injective,
suffix-recoverable encoding of the indexed value, the primary key and the
optional multi-index array position.  The encoding being injective, the key
is modelled as the triple itself. -/
structure SIndexKey where
  value : Datum
  primary : String
  tag : Option Nat
deriving DecidableEq

/-- A secondary-index B-tree: an association of index keys to the raw bytes
of the primary document stored as the entry value. -/
abbrev SIndexStore := List (SIndexKey × List Char)

/-- Model of `compute_keys`: invoke the compiled index function on the
document (the evaluator is an external collaborator, so the compiled
function is passed in as `mapping`, its thrown `ql` errors as
`Except.error`); if the descriptor is `multi` and the result is an array,
emit one tagged key per element, else a single untagged key. -/
def compute_keys (primary_key : String) (doc : Datum)
    (mapping : Datum → Except String Datum) (multi : Bool) :
    Except String (List SIndexKey) :=
  match mapping doc with
  | .error e => .error e
  | .ok index =>
    match multi, index with
    | true, .arr elems =>
      .ok (elems.enum.map (fun p => { value := p.2, primary := primary_key, tag := some p.1 }))
    | _, ix => .ok [{ value := ix, primary := primary_key, tag := none }]

/-- Insert-or-overwrite on an association list, modelling a keyed write
(`kv_location_set`) on a B-tree reached through
`find_keyvalue_location_for_write`. -/
def assocSet {α β : Type} [DecidableEq α] (m : List (α × β)) (k : α) (v : β) :
    List (α × β) :=
  match m.find? (fun p => p.1 == k) with
  | some _ => m.map (fun p => if p.1 == k then (k, v) else p)
  | none => m ++ [(k, v)]

/-- Model of the per-key delete step of the sindex deleted pass: locate the
entry and delete it only if present (`if (kv_location.value.has())`); an
absent entry leaves the index untouched. -/
def rdb_sindex_delete_key (idx : SIndexStore) (k : SIndexKey) : SIndexStore :=
  match idx.find? (fun p => p.1 == k) with
  | some _ => idx.eraseP (fun p => p.1 == k)
  | none => idx

/-- The deleted side of `rdb_update_single_sindex`: derive the deleted
document's index keys and delete each present entry; a derivation error
(`ql::base_exc_t` from the index function) is caught and swallowed — the
index is left untouched ("it was not actually in the index"). -/
def sindex_deleted_pass (mapping : Datum → Except String Datum) (multi : Bool)
    (modification : ModReport) (idx : SIndexStore) : SIndexStore :=
  match modification.info.deleted.1 with
  | none => idx
  | some deleted_doc =>
    match compute_keys modification.primary_key deleted_doc mapping multi with
    | .error _ => idx
    | .ok keys => keys.foldl rdb_sindex_delete_key idx

/-- The added side of `rdb_update_single_sindex`: derive the added
document's index keys and insert/overwrite at each an entry whose value is
the raw bytes of the primary document (not re-encoded); a derivation error
is caught and the row is silently dropped from the index. -/
def sindex_added_pass (mapping : Datum → Except String Datum) (multi : Bool)
    (modification : ModReport) (idx : SIndexStore) : SIndexStore :=
  match modification.info.added.1 with
  | none => idx
  | some added_doc =>
    match compute_keys modification.primary_key added_doc mapping multi with
    | .error _ => idx
    | .ok keys =>
      keys.foldl (fun acc k => assocSet acc k modification.info.added.2) idx

/-- Model of `rdb_update_single_sindex`: fatal guarantees (a non-empty
primary key; a deleted document implies non-empty deleted raw bytes), then
the deleted pass followed by the added pass.  Derivation errors never reach
the `Except.error` channel — they are caught inside each pass. -/
def rdb_update_single_sindex (mapping : Datum → Except String Datum) (multi : Bool)
    (modification : ModReport) (idx : SIndexStore) : Except String SIndexStore :=
  if modification.primary_key = "" then
    .error "guarantee failed: modification primary key empty"
  else if modification.info.deleted.1.isSome ∧ modification.info.deleted.2 = [] then
    .error "guarantee failed: deleted document without raw bytes"
  else
    .ok (sindex_added_pass mapping multi modification
          (sindex_deleted_pass mapping multi modification idx))

/-- Modelled from the spec: an execution of `rdb_batched_replace` over keys
`0..n-1`, as the times at which the events of each spawned
`do_a_replace_from_batched_replace` coroutine occur.  Per key: the replace
evaluation, the merge of its response into the aggregate stats, the return
of the fifo exit wait, the report application (`on_mod_report`), and the
destruction of the fifo exiter at the end of the coroutine body. -/
structure BatchedReplaceSchedule where
  evalAt : Nat → Nat
  mergeAt : Nat → Nat
  waitAt : Nat → Nat
  applyAt : Nat → Nat
  doneAt : Nat → Nat

/-- Modelled from the spec: validity of a schedule for `n` keys.  Program
order within one coroutine follows the source (evaluate, then merge stats,
then `exiter.wait()`, then `on_mod_report`, then destruction of the
exiter); the fifo enforcer (a strict FIFO admission queue: tokens are
issued in submission order by `fifo_enforcer_source_t::enter_write` and an
exit wait returns only once every earlier token's exiter is destroyed)
orders each wait after all earlier completions.  Evaluation times are
otherwise unconstrained: evaluations may complete in any order. -/
def BatchedReplaceSchedule.Valid (n : Nat) (s : BatchedReplaceSchedule) : Prop :=
  (∀ i, i < n → s.evalAt i < s.mergeAt i) ∧
  (∀ i, i < n → s.mergeAt i < s.waitAt i) ∧
  (∀ i, i < n → s.waitAt i < s.applyAt i) ∧
  (∀ i, i < n → s.applyAt i < s.doneAt i) ∧
  (∀ i, i < n → ∀ j, j < i → s.doneAt j < s.waitAt i)

/-- A valid schedule of a 2-key batch in which key 1 evaluates and merges
its stats before key 0 does (evaluation latencies reversed). -/
def reversedEvalSchedule : BatchedReplaceSchedule where
  evalAt := fun i => if i = 0 then 2 else 0
  mergeAt := fun i => if i = 0 then 3 else 1
  waitAt := fun i => if i = 0 then 4 else 7
  applyAt := fun i => if i = 0 then 5 else 8
  doneAt := fun i => if i = 0 then 6 else 9

/-- Modelled from the spec: an execution of `rdb_erase_range` with `n`
secondary indexes, as event times: each spawned `sindex_erase_range`
coroutine starts and completes; the `sindex_erase_drainer` block is exited
(its destructor returns only once every spawned coroutine has released its
drainer lock, i.e. completed — the source block comment states exactly
this); the primary `btree_erase_range_generic` call happens after the
block. -/
structure EraseSchedule where
  sindexEraseStart : Nat → Nat
  sindexEraseDone : Nat → Nat
  drainDone : Nat
  primaryEraseAt : Nat

/-- Modelled from the spec: validity of an erase schedule for `n` secondary
indexes: each sindex erase completes after it starts; the drainer
destructor returns after every sindex erase has completed; the primary
range erase runs after the drainer block is exited (program order in
`rdb_erase_range`).  Sindex erases are otherwise unordered with respect to
one another: they run concurrently. -/
def EraseSchedule.Valid (n : Nat) (s : EraseSchedule) : Prop :=
  (∀ i, i < n → s.sindexEraseStart i < s.sindexEraseDone i) ∧
  (∀ i, i < n → s.sindexEraseDone i < s.drainDone) ∧
  s.drainDone < s.primaryEraseAt

/-- A valid erase schedule with two secondary indexes whose erases overlap. -/
def overlappingEraseSchedule : EraseSchedule where
  sindexEraseStart := fun i => if i = 0 then 0 else 1
  sindexEraseDone := fun i => if i = 0 then 2 else 3
  drainDone := 4
  primaryEraseAt := 5

/-- Model of `key_range_t`: left-inclusive, right-exclusive-or-unbounded
range over store keys (an abstract linearly ordered key type). -/
structure KeyRange (K : Type) where
  left : K
  right_unbounded : Bool
  right_key : K

/-- Model of `key_range_t::is_empty`: a bounded range whose right bound does
not exceed its left bound holds no key. -/
def KeyRange.is_empty {K : Type} [LinearOrder K] (r : KeyRange K) : Bool :=
  !r.right_unbounded && decide (r.right_key ≤ r.left)

/-- Model of `key_range_t::contains_key`. -/
def KeyRange.contains_key {K : Type} [LinearOrder K] (r : KeyRange K) (k : K) : Bool :=
  decide (r.left ≤ k) && (r.right_unbounded || decide (k < r.right_key))

/-- Model of `rdb_erase_range` restricted to what decides the claims on it:
the function opens with `guarantee(!key_range.is_empty())` — a fatal
assertion, modelled as the error channel — and otherwise erases the primary
keys of the range (the sindex erase phase and the erase performed by the
external `btree_erase_range_generic` are modelled from the spec as removal
of the in-range keys). -/
def rdb_erase_range {K : Type} [LinearOrder K] (key_range : KeyRange K)
    (store : List (K × Datum)) : Except String (List (K × Datum)) :=
  if key_range.is_empty then
    .error "guarantee failed: rdb_erase_range with an empty key range"
  else
    .ok (store.filter (fun kv => !key_range.contains_key kv.1))

/-- Modelled from the spec: the row-count face of `ql::batcher_t` — it
accumulates scan results against a row-count budget; `note_el` registers
one emitted element and `should_send_batch` signals an exhausted budget. -/
structure Batcher where
  budget : Nat
  seen : Nat
deriving DecidableEq

/-- One element was appended to the batch. -/
def Batcher.note_el (b : Batcher) : Batcher := { b with seen := b.seen + 1 }

/-- The batch budget is exhausted. -/
def Batcher.should_send_batch (b : Batcher) : Bool := decide (b.budget ≤ b.seen)

/-- The state threaded through the traversal callback of a primary range
scan: the output stream, the resume key and the batch accumulator. -/
structure ScanState (K : Type) where
  stream : List (K × Datum)
  last_considered_key : K
  batcher : Batcher

/-- Model of `rdb_rget_depth_first_traversal_callback_t::handle_pair` for a
forward primary-key scan with no transform and no terminal: advance
`last_considered_key` monotonically in scan direction, append the row to the
stream, count it against the batch, and continue exactly when the batch does
not signal its budget exhausted. -/
def handle_pair {K : Type} [LinearOrder K] (st : ScanState K) (key : K) (value : Datum) :
    Bool × ScanState K :=
  let last := if st.last_considered_key < key then key else st.last_considered_key
  let b := st.batcher.note_el
  (!b.should_send_batch,
   { stream := st.stream ++ [(key, value)], last_considered_key := last, batcher := b })

/-- Modelled from the spec: `btree_concurrent_traversal` (external) visits
the in-range key/value pairs in key order, feeding each to the callback with
a FIFO fairness gate that makes the observable per-row processing occur in
traversal order, and stops as soon as the callback returns false. -/
def btree_concurrent_traversal {K : Type} [LinearOrder K] :
    ScanState K → List (K × Datum) → ScanState K
  | st, [] => st
  | st, (k, v) :: rest =>
    let r := handle_pair st k v
    if r.1 then btree_concurrent_traversal r.2 rest else r.2

/-- Model of `rget_read_response_t` for a no-terminal scan: the stream, the
resume key, and the truncation flag. -/
structure RgetResponse (K : Type) where
  stream : List (K × Datum)
  last_considered_key : K
  truncated : Bool

/-- Model of `rdb_rget_slice` for a forward scan: seed
`last_considered_key` with the left edge of the range, traverse, and record
`truncated` as the final batch-exhaustion flag.  `contents` is the ordered
list of in-range key/value pairs held by the tree. -/
def rdb_rget_slice {K : Type} [LinearOrder K] (contents : List (K × Datum))
    (range_left : K) (budget : Nat) : RgetResponse K :=
  let st := btree_concurrent_traversal
    { stream := [], last_considered_key := range_left,
      batcher := { budget := budget, seen := 0 } } contents
  { stream := st.stream, last_considered_key := st.last_considered_key,
    truncated := st.batcher.should_send_batch }

/-- Model of `rdb_distribution_get`: with no key splits the single bucket is
assigned the whole key count; otherwise every bucket is assigned
`max(key_count / key_splits.size(), 1)`.  The response map receives the
left key and then each split key, all with that same count. -/
def rdb_distribution_get {K : Type} [DecidableEq K] (key_count : Nat)
    (key_splits : List K) (left_key : K) : List (K × Nat) :=
  let keys_per_bucket :=
    if key_splits.length = 0 then key_count
    else max (key_count / key_splits.length) 1
  key_splits.foldl (fun m k => assocSet m k keys_per_bucket)
    (assocSet [] left_key keys_per_bucket)

/-- The resumption of a truncated range scan: the caller re-issues the scan
from `last_considered_key` (modelled from the spec: resuming takes the keys
of the range strictly beyond the resume key) with a fresh batch budget. -/
def rget_resume {K : Type} [LinearOrder K] (contents : List (K × Datum))
    (range_left : K) (budget resume_budget : Nat) : RgetResponse K :=
  let r1 := rdb_rget_slice contents range_left budget
  rdb_rget_slice
    (contents.filter (fun kv => decide (r1.last_considered_key < kv.1)))
    r1.last_considered_key resume_budget

/-- The key the traversal callback leaves in `last_considered_key` after
processing `l` in order, starting from `last0`: the key of the last
processed pair, or the seed when none was processed. -/
def lastKey {K : Type} (last0 : K) : List (K × Datum) → K
  | [] => last0
  | kv :: rest => lastKey kv.1 rest

-- ----------------------------------------------------------------------
-- Theorems.
-- ----------------------------------------------------------------------

/-- Claim C5 (code bug): the spec says `delete(k)` of an absent key returns
`Missing` with an empty modification report, but the source runs
`guarantee(!mod_info->deleted.second.empty() && mod_info->added.second.empty())`
unconditionally after the `if (exists)` block, so with a fresh (empty)
modification report and an absent key the fatal guarantee trips instead of
returning `MISSING`. -/
theorem rdb_delete_missing_trips_guarantee :
    rdb_delete none ModInfo.empty =
      .error "guarantee failed: rdb_delete mod_info shape" := rfl

/-- Claim C6 (amended): `set` with `overwrite=false` on a key that already
holds a value performs no write — the slot keeps its document and both
raw-byte sides of the report stay empty — and returns `DUPLICATE`; but the
modification report does not stay empty: the source records the prior
document as `deleted.first` and the proposed document as `added.first`
before testing `overwrite`. -/
theorem rdb_set_duplicate_no_write (data d0 : Datum) :
    rdb_set data false (some d0) ModInfo.empty =
      .ok (.DUPLICATE, some d0,
           { deleted := (some d0, []), added := (some data, []) }) := rfl

/-- Claim C6 (counterexample): at a concrete duplicate `set`, the operation
returns `DUPLICATE` with the stored document unchanged, yet the resulting
modification report differs from the empty report, refuting the claim that
the report stays empty. -/
theorem rdb_set_duplicate_report_not_empty :
    rdb_set (Datum.obj [("id", Datum.str "k"), ("v", Datum.num 2)]) false
        (some (Datum.obj [("id", Datum.str "k"), ("v", Datum.num 1)])) ModInfo.empty =
      .ok (.DUPLICATE, some (Datum.obj [("id", Datum.str "k"), ("v", Datum.num 1)]),
           { deleted := (some (Datum.obj [("id", Datum.str "k"), ("v", Datum.num 1)]), []),
             added := (some (Datum.obj [("id", Datum.str "k"), ("v", Datum.num 2)]), []) }) ∧
    ({ deleted := (some (Datum.obj [("id", Datum.str "k"), ("v", Datum.num 1)]), []),
       added := (some (Datum.obj [("id", Datum.str "k"), ("v", Datum.num 2)]), []) } : ModInfo)
      ≠ ModInfo.empty :=
  ⟨rfl, by decide⟩

/-- Claim C10: `rdb_erase_range` opens with `guarantee(!key_range.is_empty())`,
so an empty key range is rejected by a fatal assertion instead of being
treated as a successful no-op. -/
theorem erase_range_rejects_empty_range {K : Type} [LinearOrder K]
    (key_range : KeyRange K) (store : List (K × Datum))
    (h : key_range.is_empty = true) :
    rdb_erase_range key_range store =
      .error "guarantee failed: rdb_erase_range with an empty key range" := by
  simp [rdb_erase_range, h]

/-- Witness for claim C10 at a concrete empty range and non-empty store. -/
theorem erase_range_rejects_empty_range_wit :
    (KeyRange.mk 3 false 3 : KeyRange Nat).is_empty = true ∧
    rdb_erase_range (KeyRange.mk 3 false 3) ([(0, Datum.null)] : List (Nat × Datum)) =
      .error "guarantee failed: rdb_erase_range with an empty key range" :=
  ⟨by decide, erase_range_rejects_empty_range _ _ (by decide)⟩

/-- Claim C2 (amended): in every valid schedule of a batched replace the
modification reports are handed to the sindex callback (`on_mod_report`) in
submission order — key `i` before key `j` whenever `i < j` — regardless of
the order in which the per-key evaluations complete.  (The per-status
counter merges, by contrast, happen in completion order; see the
counterexample.) -/
theorem batched_replace_reports_applied_in_submission_order
    (n : Nat) (s : BatchedReplaceSchedule) (h : s.Valid n)
    (i j : Nat) (hij : i < j) (hj : j < n) :
    s.applyAt i < s.applyAt j := by
  obtain ⟨-, -, h3, h4, h5⟩ := h
  have hi : i < n := lt_trans hij hj
  have a : s.applyAt i < s.doneAt i := h4 i hi
  have b : s.doneAt i < s.waitAt j := h5 j hj i hij
  have c : s.waitAt j < s.applyAt j := h3 j hj
  omega

/-- Witness for claim C2: a concrete valid 2-key schedule with evaluation
latencies reversed, in which report application still happens in submission
order. -/
theorem batched_replace_reports_order_wit :
    BatchedReplaceSchedule.Valid 2 reversedEvalSchedule ∧
    reversedEvalSchedule.applyAt 0 < reversedEvalSchedule.applyAt 1 :=
  ⟨⟨by decide, by decide, by decide, by decide, by decide⟩,
   batched_replace_reports_applied_in_submission_order 2 reversedEvalSchedule
     ⟨by decide, by decide, by decide, by decide, by decide⟩ 0 1 (by decide) (by decide)⟩

/-- Claim C2 (counterexample): the source merges each response into the
aggregate stats BEFORE waiting on the fifo exit
(`*stats_out = (*stats_out)->merge(...)` precedes `exiter.wait()`), so the
per-status counters are merged in completion order: here a valid 2-key
schedule in which key 1 merges its counters before key 0 does, refuting the
claim that the aggregate per-status counters are applied in submission
order. -/
theorem batched_replace_stats_merge_unordered :
    BatchedReplaceSchedule.Valid 2 reversedEvalSchedule ∧
    reversedEvalSchedule.mergeAt 1 < reversedEvalSchedule.mergeAt 0 :=
  ⟨⟨by decide, by decide, by decide, by decide, by decide⟩, by decide⟩

/-- Claim C4: in every valid schedule of `rdb_erase_range` with `n`
secondary indexes, every secondary-index range erase completes before the
primary-key range erase runs: the drainer block is exited only after all
spawned sindex erase coroutines are done, and the primary erase follows the
block in program order. -/
theorem sindex_erase_completes_before_primary_erase
    (n : Nat) (s : EraseSchedule) (h : s.Valid n) (i : Nat) (hi : i < n) :
    s.sindexEraseDone i < s.primaryEraseAt := by
  obtain ⟨-, h2, h3⟩ := h
  exact lt_trans (h2 i hi) h3

/-- Witness for claim C4: a concrete valid schedule with two overlapping
sindex erases, both completing before the primary erase. -/
theorem sindex_erase_before_primary_wit :
    EraseSchedule.Valid 2 overlappingEraseSchedule ∧
    overlappingEraseSchedule.sindexEraseDone 0 < overlappingEraseSchedule.primaryEraseAt ∧
    overlappingEraseSchedule.sindexEraseDone 1 < overlappingEraseSchedule.primaryEraseAt :=
  ⟨⟨by decide, by decide, by decide⟩,
   sindex_erase_completes_before_primary_erase 2 overlappingEraseSchedule
     ⟨by decide, by decide, by decide⟩ 0 (by decide),
   sindex_erase_completes_before_primary_erase 2 overlappingEraseSchedule
     ⟨by decide, by decide, by decide⟩ 1 (by decide)⟩

theorem assocSet_forall {α β : Type} [DecidableEq α] (P : β → Prop)
    (m : List (α × β)) (k : α) (v : β)
    (hm : ∀ p ∈ m, P p.2) (hv : P v) : ∀ p ∈ assocSet m k v, P p.2 := by
  unfold assocSet
  cases m.find? (fun p => p.1 == k) with
  | some _ =>
      intro p hp
      rcases List.mem_map.mp hp with ⟨q, hq, rfl⟩
      by_cases hqk : (q.1 == k) = true
      · simpa [hqk] using hv
      · simpa [hqk] using hm q hq
  | none =>
      intro p hp
      rcases List.mem_append.mp hp with h | h
      · exact hm p h
      · rcases List.mem_singleton.mp h with rfl
        exact hv

theorem foldl_assocSet_forall {α β : Type} [DecidableEq α] (v : β) :
    ∀ (ks : List α) (m : List (α × β)), (∀ p ∈ m, p.2 = v) →
      ∀ p ∈ ks.foldl (fun m k => assocSet m k v) m, p.2 = v := by
  intro ks
  induction ks with
  | nil => intro m hm; exact hm
  | cons a t ih =>
      intro m hm
      exact ih _ (assocSet_forall (fun x => x = v) m a v hm rfl)

/-- Claim C9 (amended): every bucket of the distribution response is
assigned one and the same count; that common count is the whole key count
when there are no key splits (with no minimum applied), and otherwise
`max(key_count / key_splits.size(), 1)` — the divisor being the number of
splits, which is one less than the number of buckets in the response. -/
theorem distribution_counts_uniform {K : Type} [DecidableEq K]
    (key_count : Nat) (key_splits : List K) (left_key : K) :
    ∀ p ∈ rdb_distribution_get key_count key_splits left_key,
      p.2 = (if key_splits.length = 0 then key_count
             else max (key_count / key_splits.length) 1) := by
  intro p hp
  simp only [rdb_distribution_get] at hp
  set v := (if key_splits.length = 0 then key_count
            else max (key_count / key_splits.length) 1) with hv
  exact foldl_assocSet_forall v key_splits _
    (assocSet_forall (fun x => x = v) [] left_key v (by simp) rfl) p hp

/-- Witness for claim C9 at a concrete call with two splits. -/
theorem distribution_counts_uniform_wit :
    (("a", 5) : String × Nat) ∈ rdb_distribution_get 11 ["a", "b"] "" ∧
    (("a", 5) : String × Nat).2 = max (11 / 2) 1 :=
  ⟨by decide,
   distribution_counts_uniform 11 ["a", "b"] "" ("a", 5) (by decide)⟩

/-- Claim C9 (counterexample): with key count 10 and one key split the
response has two buckets, each assigned `max(10 / 1, 1) = 10`, not the
claimed even division by the bucket count `max(10 / 2, 1) = 5`; and with
key count 0 and no splits the single bucket is assigned 0, refuting the
claimed minimum of 1 per bucket. -/
theorem distribution_not_even_division :
    rdb_distribution_get 10 ["s"] "x" = [("x", 10), ("s", 10)] ∧
    ¬ (∀ p ∈ rdb_distribution_get 10 ["s"] "x", p.2 = max (10 / 2) 1) ∧
    rdb_distribution_get 0 ([] : List String) "x" = [("x", 0)] ∧
    ¬ (∀ p ∈ rdb_distribution_get 0 ([] : List String) "x", 1 ≤ p.2) :=
  ⟨rfl, by decide, rfl, by decide⟩

theorem Datum.get_eq_some_obj {o : Datum} {name : String} {d : Datum}
    (h : o.get name = some d) : ∃ fields, o = Datum.obj fields := by
  cases o with
  | obj fields => exact ⟨fields, rfl⟩
  | null => simp [Datum.get] at h
  | bool b => simp [Datum.get] at h
  | num n => simp [Datum.get] at h
  | str s => simp [Datum.get] at h
  | arr elems => simp [Datum.get] at h

/-- Claim C3: applying a modification report to one secondary index never
fails the primary write: under the two fatal-guarantee preconditions the
update always returns `ok`; an index-key derivation error on the deleted
side is swallowed, leaving the index untouched by the deleted pass (the
entry deletes are skipped); and a derivation error on the added side leaves
the added pass a no-op, silently omitting the document from the index. -/
theorem sindex_derivation_error_swallowed
    (mapping : Datum → Except String Datum) (multi : Bool)
    (modification : ModReport) (idx : SIndexStore)
    (hpk : modification.primary_key ≠ "")
    (hbytes : modification.info.deleted.1.isSome → modification.info.deleted.2 ≠ []) :
    (rdb_update_single_sindex mapping multi modification idx =
      .ok (sindex_added_pass mapping multi modification
            (sindex_deleted_pass mapping multi modification idx))) ∧
    (∀ ddoc e, modification.info.deleted.1 = some ddoc →
      compute_keys modification.primary_key ddoc mapping multi = .error e →
      sindex_deleted_pass mapping multi modification idx = idx) ∧
    (∀ adoc e, ∀ idx1 : SIndexStore, modification.info.added.1 = some adoc →
      compute_keys modification.primary_key adoc mapping multi = .error e →
      sindex_added_pass mapping multi modification idx1 = idx1) := by
  refine ⟨?_, ?_, ?_⟩
  · unfold rdb_update_single_sindex
    rw [if_neg hpk, if_neg]
    rintro ⟨h1, h2⟩
    exact hbytes h1 h2
  · intro ddoc e hd herr
    simp [sindex_deleted_pass, hd, herr]
  · intro adoc e idx1 ha herr
    simp [sindex_added_pass, ha, herr]

/-- Witness for claim C3: an index function that throws on every document;
the update of a report carrying both a deleted and an added document
returns `ok` with the index unchanged by both passes. -/
theorem sindex_derivation_error_swallowed_wit :
    (rdb_update_single_sindex (fun _ => .error "mapping threw") false
        { primary_key := "Sk",
          info := { deleted := (some (Datum.num 1), ['I']),
                    added := (some (Datum.num 2), ['I']) } }
        [({ value := Datum.num 9, primary := "Sq", tag := none }, ['I'])] =
      .ok (sindex_added_pass (fun _ => .error "mapping threw") false
            { primary_key := "Sk",
              info := { deleted := (some (Datum.num 1), ['I']),
                        added := (some (Datum.num 2), ['I']) } }
            (sindex_deleted_pass (fun _ => .error "mapping threw") false
              { primary_key := "Sk",
                info := { deleted := (some (Datum.num 1), ['I']),
                          added := (some (Datum.num 2), ['I']) } }
              [({ value := Datum.num 9, primary := "Sq", tag := none }, ['I'])]))) ∧
    (sindex_deleted_pass (fun _ => .error "mapping threw") false
        { primary_key := "Sk",
          info := { deleted := (some (Datum.num 1), ['I']),
                    added := (some (Datum.num 2), ['I']) } }
        [({ value := Datum.num 9, primary := "Sq", tag := none }, ['I'])] =
      [({ value := Datum.num 9, primary := "Sq", tag := none }, ['I'])]) ∧
    (sindex_added_pass (fun _ => .error "mapping threw") false
        { primary_key := "Sk",
          info := { deleted := (some (Datum.num 1), ['I']),
                    added := (some (Datum.num 2), ['I']) } }
        [({ value := Datum.num 9, primary := "Sq", tag := none }, ['I'])] =
      [({ value := Datum.num 9, primary := "Sq", tag := none }, ['I'])]) :=
  ⟨(sindex_derivation_error_swallowed (fun _ => .error "mapping threw") false
      { primary_key := "Sk",
        info := { deleted := (some (Datum.num 1), ['I']),
                  added := (some (Datum.num 2), ['I']) } }
      [({ value := Datum.num 9, primary := "Sq", tag := none }, ['I'])]
      (by decide) (by intro h; decide)).1,
   (sindex_derivation_error_swallowed (fun _ => .error "mapping threw") false
      { primary_key := "Sk",
        info := { deleted := (some (Datum.num 1), ['I']),
                  added := (some (Datum.num 2), ['I']) } }
      [({ value := Datum.num 9, primary := "Sq", tag := none }, ['I'])]
      (by decide) (by intro h; decide)).2.1 (Datum.num 1) "mapping threw" rfl rfl,
   (sindex_derivation_error_swallowed (fun _ => .error "mapping threw") false
      { primary_key := "Sk",
        info := { deleted := (some (Datum.num 1), ['I']),
                  added := (some (Datum.num 2), ['I']) } }
      [({ value := Datum.num 9, primary := "Sq", tag := none }, ['I'])]
      (by decide) (by intro h; decide)).2.2 (Datum.num 2) "mapping threw"
      [({ value := Datum.num 9, primary := "Sq", tag := none }, ['I'])] rfl rfl⟩

/-- Claim C7 (amended): a no-op replace (skipped: both old and new null;
unchanged: new structurally equal to old) produces a modification report
with both slots empty, and that report IS still handed to the sindex
callback (the source calls `on_mod_report` unconditionally) — but applying
the empty report to any secondary index provably changes nothing. -/
theorem noop_replace_report_empty_but_emitted
    (primary_key key : String) (replacer : Datum → Datum)
    (mapping : Datum → Except String Datum) (multi : Bool) (idx : SIndexStore) :
    (replacer Datum.null = Datum.null →
      do_a_replace_from_batched_replace primary_key key none replacer =
        .ok ({ resp := .stat .skipped, write := none, modInfo := ModInfo.empty },
             [{ primary_key := key, info := ModInfo.empty }])) ∧
    (∀ o opk, o.get primary_key = some opk → printPrimary opk = some key →
      replacer o = o →
      do_a_replace_from_batched_replace primary_key key (some o) replacer =
        .ok ({ resp := .stat .unchanged, write := none, modInfo := ModInfo.empty },
             [{ primary_key := key, info := ModInfo.empty }])) ∧
    (key ≠ "" →
      rdb_update_single_sindex mapping multi
        { primary_key := key, info := ModInfo.empty } idx = .ok idx) := by
  refine ⟨?_, ?_, ?_⟩
  · intro h
    simp [do_a_replace_from_batched_replace, rdb_replace_and_return_superblock, h]
  · intro o opk hget hpp hrep
    obtain ⟨fields, rfl⟩ := Datum.get_eq_some_obj hget
    simp [do_a_replace_from_batched_replace, rdb_replace_and_return_superblock,
          hrep, hget, hpp, Datum.isObject]
  · intro hk
    simp [rdb_update_single_sindex, sindex_deleted_pass, sindex_added_pass,
          ModInfo.empty, hk]

/-- Witness for claim C7 at concrete no-op replaces and a concrete index. -/
theorem noop_replace_report_wit :
    (do_a_replace_from_batched_replace "id" "Sk" none (fun _ => Datum.null) =
      .ok ({ resp := .stat .skipped, write := none, modInfo := ModInfo.empty },
           [{ primary_key := "Sk", info := ModInfo.empty }])) ∧
    (do_a_replace_from_batched_replace "id" "Sk"
        (some (Datum.obj [("id", Datum.str "k")])) (fun d => d) =
      .ok ({ resp := .stat .unchanged, write := none, modInfo := ModInfo.empty },
           [{ primary_key := "Sk", info := ModInfo.empty }])) ∧
    (rdb_update_single_sindex (fun d => .ok d) false
        { primary_key := "Sk", info := ModInfo.empty }
        [({ value := Datum.num 9, primary := "Sq", tag := none }, ['I'])] =
      .ok [({ value := Datum.num 9, primary := "Sq", tag := none }, ['I'])]) :=
  ⟨(noop_replace_report_empty_but_emitted "id" "Sk" (fun _ => Datum.null)
      (fun d => .ok d) false []).1 rfl,
   (noop_replace_report_empty_but_emitted "id" "Sk" (fun d => d)
      (fun d => .ok d) false []).2.1
      (Datum.obj [("id", Datum.str "k")]) (Datum.str "k") rfl rfl rfl,
   (noop_replace_report_empty_but_emitted "id" "Sk" (fun d => d) (fun d => .ok d)
      false [({ value := Datum.num 9, primary := "Sq", tag := none }, ['I'])]).2.2
      (by decide)⟩

/-- Claim C7 (counterexample): at a concrete no-op replace (old and new
both null) the modification report has both slots empty, yet the list of
reports handed downstream to secondary-index maintenance is non-empty —
the report IS emitted, refuting the claim that it is not. -/
theorem noop_replace_report_still_emitted :
    do_a_replace_from_batched_replace "id" "Sk" none (fun _ => Datum.null) =
      .ok ({ resp := .stat .skipped, write := none, modInfo := ModInfo.empty },
           [{ primary_key := "Sk", info := ModInfo.empty }]) ∧
    ([{ primary_key := "Sk", info := ModInfo.empty }] : List ModReport) ≠ [] :=
  ⟨rfl, by decide⟩

/-- Claim C1: the single-key replace transition table.  With the
primary-key invariant of prior writes as hypotheses (a stored document
carries the primary-key field and it prints to the operation key):
old null and new null gives `skipped` with no write and an empty report;
old null and new an object whose primary-key field prints to the operation
key gives `inserted` with a write and an added-only report, while a
mismatching printed primary key gives a validation error; old an object and
new null gives `deleted` with a delete and a deleted-only report; old an
object and new structurally equal gives `unchanged` with no write and an
empty report; old an object and new a different object keeping the
primary-key field gives `replaced` with a write and both report slots; and
a new value that is neither object nor null gives the validation error
naming the object requirement, whether or not the key started empty. -/
theorem replace_transition_table (primary_key key : String)
    (replacer : Datum → Datum) :
    (replacer Datum.null = Datum.null →
      rdb_replace_and_return_superblock primary_key key none replacer =
        .ok { resp := .stat .skipped, write := none, modInfo := ModInfo.empty }) ∧
    (∀ fields pkd, replacer Datum.null = Datum.obj fields →
      (Datum.obj fields).get primary_key = some pkd →
      printPrimary pkd = some key →
      rdb_replace_and_return_superblock primary_key key none replacer =
        .ok { resp := .stat .inserted, write := some (.setOp (Datum.obj fields)),
              modInfo := { deleted := (none, []),
                           added := (some (Datum.obj fields),
                                     serializeDatum (Datum.obj fields)) } }) ∧
    (∀ fields pkd, replacer Datum.null = Datum.obj fields →
      (Datum.obj fields).get primary_key = some pkd →
      printPrimary pkd ≠ some key →
      rdb_replace_and_return_superblock primary_key key none replacer =
        .ok { resp := .errorResp "Primary key cannot be changed", write := none,
              modInfo := ModInfo.empty }) ∧
    (∀ o opk, o.get primary_key = some opk → replacer o = Datum.null →
      rdb_replace_and_return_superblock primary_key key (some o) replacer =
        .ok { resp := .stat .deleted, write := some .deleteOp,
              modInfo := { deleted := (some o, serializeDatum o),
                           added := (none, []) } }) ∧
    (∀ o opk, o.get primary_key = some opk → printPrimary opk = some key →
      replacer o = o →
      rdb_replace_and_return_superblock primary_key key (some o) replacer =
        .ok { resp := .stat .unchanged, write := none, modInfo := ModInfo.empty }) ∧
    (∀ o opk newd, o.get primary_key = some opk → printPrimary opk = some key →
      replacer o = newd → newd.isObject = true → newd.get primary_key = some opk →
      newd ≠ o →
      rdb_replace_and_return_superblock primary_key key (some o) replacer =
        .ok { resp := .stat .replaced, write := some (.setOp newd),
              modInfo := { deleted := (some o, serializeDatum o),
                           added := (some newd, serializeDatum newd) } }) ∧
    (replacer Datum.null ≠ Datum.null → (replacer Datum.null).isObject = false →
      rdb_replace_and_return_superblock primary_key key none replacer =
        .ok { resp := .errorResp "Inserted value must be an OBJECT", write := none,
              modInfo := ModInfo.empty }) ∧
    (∀ o opk, o.get primary_key = some opk → replacer o ≠ Datum.null →
      (replacer o).isObject = false →
      rdb_replace_and_return_superblock primary_key key (some o) replacer =
        .ok { resp := .errorResp "Inserted value must be an OBJECT", write := none,
              modInfo := ModInfo.empty }) := by
  refine ⟨?_, ?_, ?_, ?_, ?_, ?_, ?_, ?_⟩
  · intro h
    simp [rdb_replace_and_return_superblock, h]
  · intro fields pkd hrep hget hpp
    simp [rdb_replace_and_return_superblock, kv_location_set, hrep, hget, hpp,
          Datum.isObject, serializeDatum, ModInfo.empty]
  · intro fields pkd hrep hget hpp
    simp [rdb_replace_and_return_superblock, hrep, hget, hpp, Datum.isObject]
  · intro o opk hget hrep
    obtain ⟨fields, rfl⟩ := Datum.get_eq_some_obj hget
    simp [rdb_replace_and_return_superblock, kv_location_delete, hrep, hget,
          serializeDatum, ModInfo.empty]
  · intro o opk hget hpp hrep
    obtain ⟨fields, rfl⟩ := Datum.get_eq_some_obj hget
    simp [rdb_replace_and_return_superblock, hrep, hget, hpp, Datum.isObject]
  · intro o opk newd hget hpp hrep hobj hnewget hne
    obtain ⟨fields, rfl⟩ := Datum.get_eq_some_obj hget
    obtain ⟨fields2, rfl⟩ := Datum.get_eq_some_obj hnewget
    simp [rdb_replace_and_return_superblock, kv_location_set, hrep, hget, hpp,
          hnewget, Datum.isObject, serializeDatum, ModInfo.empty, hne]
    exact fun hfe => hne (by rw [hfe])
  · intro hne hobj
    cases h : replacer Datum.null with
    | null => exact absurd h hne
    | bool b => simp [rdb_replace_and_return_superblock, h, Datum.isObject]
    | num n => simp [rdb_replace_and_return_superblock, h, Datum.isObject]
    | str s => simp [rdb_replace_and_return_superblock, h, Datum.isObject]
    | arr elems => simp [rdb_replace_and_return_superblock, h, Datum.isObject]
    | obj fields => rw [h] at hobj; simp [Datum.isObject] at hobj
  · intro o opk hget hne hobj
    obtain ⟨fields, rfl⟩ := Datum.get_eq_some_obj hget
    cases h : replacer (Datum.obj fields) with
    | null => exact absurd h hne
    | bool b => simp [rdb_replace_and_return_superblock, h, hget, Datum.isObject]
    | num n => simp [rdb_replace_and_return_superblock, h, hget, Datum.isObject]
    | str s => simp [rdb_replace_and_return_superblock, h, hget, Datum.isObject]
    | arr elems => simp [rdb_replace_and_return_superblock, h, hget, Datum.isObject]
    | obj fields2 => rw [h] at hobj; simp [Datum.isObject] at hobj

/-- Witness for claim C1: each row of the transition table exercised at a
concrete input (primary-key field `id`, operation key `Sk`). -/
theorem replace_transition_table_wit :
    (rdb_replace_and_return_superblock "id" "Sk" none (fun _ => Datum.null) =
      .ok { resp := .stat .skipped, write := none, modInfo := ModInfo.empty }) ∧
    (rdb_replace_and_return_superblock "id" "Sk" none
        (fun _ => Datum.obj [("id", Datum.str "k")]) =
      .ok { resp := .stat .inserted,
            write := some (.setOp (Datum.obj [("id", Datum.str "k")])),
            modInfo := { deleted := (none, []),
                         added := (some (Datum.obj [("id", Datum.str "k")]),
                                   serializeDatum (Datum.obj [("id", Datum.str "k")])) } }) ∧
    (rdb_replace_and_return_superblock "id" "Sk" none
        (fun _ => Datum.obj [("id", Datum.str "other")]) =
      .ok { resp := .errorResp "Primary key cannot be changed", write := none,
            modInfo := ModInfo.empty }) ∧
    (rdb_replace_and_return_superblock "id" "Sk"
        (some (Datum.obj [("id", Datum.str "k"), ("v", Datum.num 1)]))
        (fun _ => Datum.null) =
      .ok { resp := .stat .deleted, write := some .deleteOp,
            modInfo := { deleted :=
                           (some (Datum.obj [("id", Datum.str "k"), ("v", Datum.num 1)]),
                            serializeDatum
                              (Datum.obj [("id", Datum.str "k"), ("v", Datum.num 1)])),
                         added := (none, []) } }) ∧
    (rdb_replace_and_return_superblock "id" "Sk"
        (some (Datum.obj [("id", Datum.str "k"), ("v", Datum.num 1)])) (fun d => d) =
      .ok { resp := .stat .unchanged, write := none, modInfo := ModInfo.empty }) ∧
    (rdb_replace_and_return_superblock "id" "Sk"
        (some (Datum.obj [("id", Datum.str "k"), ("v", Datum.num 1)]))
        (fun _ => Datum.obj [("id", Datum.str "k"), ("v", Datum.num 2)]) =
      .ok { resp := .stat .replaced,
            write := some (.setOp (Datum.obj [("id", Datum.str "k"), ("v", Datum.num 2)])),
            modInfo := { deleted :=
                           (some (Datum.obj [("id", Datum.str "k"), ("v", Datum.num 1)]),
                            serializeDatum
                              (Datum.obj [("id", Datum.str "k"), ("v", Datum.num 1)])),
                         added :=
                           (some (Datum.obj [("id", Datum.str "k"), ("v", Datum.num 2)]),
                            serializeDatum
                              (Datum.obj [("id", Datum.str "k"), ("v", Datum.num 2)])) } }) ∧
    (rdb_replace_and_return_superblock "id" "Sk" none (fun _ => Datum.num 7) =
      .ok { resp := .errorResp "Inserted value must be an OBJECT", write := none,
            modInfo := ModInfo.empty }) ∧
    (rdb_replace_and_return_superblock "id" "Sk"
        (some (Datum.obj [("id", Datum.str "k"), ("v", Datum.num 1)]))
        (fun _ => Datum.num 7) =
      .ok { resp := .errorResp "Inserted value must be an OBJECT", write := none,
            modInfo := ModInfo.empty }) :=
  ⟨(replace_transition_table "id" "Sk" (fun _ => Datum.null)).1 rfl,
   (replace_transition_table "id" "Sk"
      (fun _ => Datum.obj [("id", Datum.str "k")])).2.1
      [("id", Datum.str "k")] (Datum.str "k") rfl rfl rfl,
   (replace_transition_table "id" "Sk"
      (fun _ => Datum.obj [("id", Datum.str "other")])).2.2.1
      [("id", Datum.str "other")] (Datum.str "other") rfl rfl (by decide),
   (replace_transition_table "id" "Sk" (fun _ => Datum.null)).2.2.2.1
      (Datum.obj [("id", Datum.str "k"), ("v", Datum.num 1)]) (Datum.str "k") rfl rfl,
   (replace_transition_table "id" "Sk" (fun d => d)).2.2.2.2.1
      (Datum.obj [("id", Datum.str "k"), ("v", Datum.num 1)]) (Datum.str "k")
      rfl rfl rfl,
   (replace_transition_table "id" "Sk"
      (fun _ => Datum.obj [("id", Datum.str "k"), ("v", Datum.num 2)])).2.2.2.2.2.1
      (Datum.obj [("id", Datum.str "k"), ("v", Datum.num 1)]) (Datum.str "k")
      (Datum.obj [("id", Datum.str "k"), ("v", Datum.num 2)])
      rfl rfl rfl rfl rfl (by decide),
   (replace_transition_table "id" "Sk" (fun _ => Datum.num 7)).2.2.2.2.2.2.1
      (by decide) rfl,
   (replace_transition_table "id" "Sk" (fun _ => Datum.num 7)).2.2.2.2.2.2.2
      (Datum.obj [("id", Datum.str "k"), ("v", Datum.num 1)]) (Datum.str "k")
      rfl (by decide) rfl⟩

theorem lastKey_le {K : Type} [LinearOrder K] :
    ∀ (l : List (K × Datum)) (last0 : K),
      l.Pairwise (fun a b => a.1 < b.1) → (∀ kv ∈ l, last0 ≤ kv.1) →
      last0 ≤ lastKey last0 l
  | [], _, _, _ => le_refl _
  | a :: rest, last0, hsorted, hmono => by
      have h1 : last0 ≤ a.1 := hmono a (List.mem_cons_self a rest)
      have h2 : a.1 ≤ lastKey a.1 rest :=
        lastKey_le rest a.1 hsorted.of_cons
          (fun kv hkv => le_of_lt ((List.pairwise_cons.mp hsorted).1 kv hkv))
      exact le_trans h1 (by simpa [lastKey] using h2)

theorem lastKey_ub {K : Type} [LinearOrder K] :
    ∀ (l : List (K × Datum)) (last0 : K),
      l.Pairwise (fun a b => a.1 < b.1) → (∀ kv ∈ l, last0 ≤ kv.1) →
      ∀ kv ∈ l, kv.1 ≤ lastKey last0 l
  | [], _, _, _, kv, hkv => absurd hkv (List.not_mem_nil kv)
  | a :: rest, last0, hsorted, hmono, kv, hkv => by
      have hrest_sorted := hsorted.of_cons
      have hrest_mono : ∀ q ∈ rest, a.1 ≤ q.1 :=
        fun q hq => le_of_lt ((List.pairwise_cons.mp hsorted).1 q hq)
      rcases List.mem_cons.mp hkv with rfl | hmem
      · simpa [lastKey] using lastKey_le rest kv.1 hrest_sorted hrest_mono
      · simpa [lastKey] using lastKey_ub rest a.1 hrest_sorted hrest_mono kv hmem

theorem lastKey_mem {K : Type} :
    ∀ (l : List (K × Datum)) (last0 : K), l ≠ [] →
      ∃ kv ∈ l, lastKey last0 l = kv.1
  | [], _, h => absurd rfl h
  | [a], _, _ => ⟨a, List.mem_cons_self a [], rfl⟩
  | a :: b :: t, _, _ => by
      obtain ⟨kv, hm, he⟩ := lastKey_mem (b :: t) a.1 (by simp)
      exact ⟨kv, List.mem_cons_of_mem a hm, he⟩

theorem monotone_update_eq {K : Type} [LinearOrder K] {last0 k : K} (h : last0 ≤ k) :
    (if last0 < k then k else last0) = k := by
  rcases lt_or_eq_of_le h with hlt | rfl
  · simp [hlt]
  · simp

theorem traversal_consumes_all {K : Type} [LinearOrder K] :
    ∀ (l stream0 : List (K × Datum)) (last0 : K) (B s : Nat),
      s < B → l.length ≤ B - s →
      l.Pairwise (fun a b => a.1 < b.1) → (∀ kv ∈ l, last0 ≤ kv.1) →
      btree_concurrent_traversal ⟨stream0, last0, ⟨B, s⟩⟩ l =
        ⟨stream0 ++ l, lastKey last0 l, ⟨B, s + l.length⟩⟩
  | [], stream0, last0, B, s, _, _, _, _ => by simp [btree_concurrent_traversal, lastKey]
  | (k, v) :: rest, stream0, last0, B, s, hs, hlen, hsorted, hmono => by
      have hk : last0 ≤ k := hmono (k, v) (List.mem_cons_self _ rest)
      have hrest_sorted := hsorted.of_cons
      have hrest_mono : ∀ q ∈ rest, k ≤ q.1 :=
        fun q hq => le_of_lt ((List.pairwise_cons.mp hsorted).1 q hq)
      by_cases hb : B ≤ s + 1
      · -- the budget is exhausted by this element; since the length fits, rest = []
        have hrest_nil : rest = [] := by
          have : rest.length = 0 := by
            have := hlen
            simp only [List.length_cons] at this
            omega
          exact List.eq_nil_of_length_eq_zero this
        subst hrest_nil
        simp [btree_concurrent_traversal, handle_pair, Batcher.note_el,
              Batcher.should_send_batch, hb, lastKey, monotone_update_eq hk]
      · have hrec := traversal_consumes_all rest (stream0 ++ [(k, v)]) k B (s + 1)
          (by omega) (by simp only [List.length_cons] at hlen; omega)
          hrest_sorted hrest_mono
        simp only [btree_concurrent_traversal, handle_pair, Batcher.note_el,
              Batcher.should_send_batch, hb, decide_eq_true_eq, Bool.not_eq_true,
              decide_eq_false_iff_not, if_true, if_false]
        simp only [monotone_update_eq hk]
        rw [if_pos (by simp [hb])]
        rw [hrec]
        simp [lastKey, List.append_assoc]
        omega

theorem traversal_exhausts_budget {K : Type} [LinearOrder K] :
    ∀ (l stream0 : List (K × Datum)) (last0 : K) (B s : Nat),
      s < B → B - s < l.length →
      l.Pairwise (fun a b => a.1 < b.1) → (∀ kv ∈ l, last0 ≤ kv.1) →
      btree_concurrent_traversal ⟨stream0, last0, ⟨B, s⟩⟩ l =
        ⟨stream0 ++ l.take (B - s), lastKey last0 (l.take (B - s)), ⟨B, B⟩⟩
  | [], _, _, B, s, _, hlen, _, _ => by simp at hlen
  | (k, v) :: rest, stream0, last0, B, s, hs, hlen, hsorted, hmono => by
      have hk : last0 ≤ k := hmono (k, v) (List.mem_cons_self _ rest)
      have hrest_sorted := hsorted.of_cons
      have hrest_mono : ∀ q ∈ rest, k ≤ q.1 :=
        fun q hq => le_of_lt ((List.pairwise_cons.mp hsorted).1 q hq)
      have htake : ((k, v) :: rest).take (B - s) = (k, v) :: rest.take (B - s - 1) := by
        have h1 : B - s = (B - s - 1) + 1 := by omega
        conv_lhs => rw [h1]
        rw [List.take_succ_cons]
      by_cases hb : B ≤ s + 1
      · have hBs : B - s = 1 := by omega
        simp [btree_concurrent_traversal, handle_pair, Batcher.note_el,
              Batcher.should_send_batch, hb, hBs, lastKey, monotone_update_eq hk]
        omega
      · have hrec := traversal_exhausts_budget rest (stream0 ++ [(k, v)]) k B (s + 1)
          (by omega) (by simp only [List.length_cons] at hlen; omega)
          hrest_sorted hrest_mono
        simp only [btree_concurrent_traversal, handle_pair, Batcher.note_el,
              Batcher.should_send_batch]
        simp only [monotone_update_eq hk]
        rw [if_pos (by simp [hb])]
        rw [hrec, htake]
        have h2 : B - (s + 1) = B - s - 1 := by omega
        simp [lastKey, List.append_assoc, h2]

theorem lastKey_take_lt_drop {K : Type} [LinearOrder K]
    (l : List (K × Datum)) (last0 : K) (B : Nat)
    (hsorted : l.Pairwise (fun a b => a.1 < b.1))
    (hB : 1 ≤ B) (hBlen : B ≤ l.length) :
    ∀ kv ∈ l.drop B, lastKey last0 (l.take B) < kv.1 := by
  have htake_ne : l.take B ≠ [] := by
    apply List.ne_nil_of_length_pos
    rw [List.length_take]
    omega
  obtain ⟨kv1, hmem1, heq1⟩ := lastKey_mem (l.take B) last0 htake_ne
  intro kv hkv
  rw [heq1]
  have hsp : (l.take B ++ l.drop B).Pairwise (fun a b => a.1 < b.1) := by
    rw [List.take_append_drop]; exact hsorted
  exact (List.pairwise_append.mp hsp).2.2 kv1 hmem1 kv hkv

theorem filter_lastKey_take_eq_drop {K : Type} [LinearOrder K]
    (l : List (K × Datum)) (last0 : K) (B : Nat)
    (hsorted : l.Pairwise (fun a b => a.1 < b.1))
    (hmono : ∀ kv ∈ l, last0 ≤ kv.1)
    (hB : 1 ≤ B) (hBlen : B ≤ l.length) :
    l.filter (fun kv => decide (lastKey last0 (l.take B) < kv.1)) = l.drop B := by
  set c := lastKey last0 (l.take B) with hc
  conv_lhs => rw [← List.take_append_drop B l]
  rw [List.filter_append]
  have h1 : (l.take B).filter
      (fun kv => decide (lastKey last0 (l.take B) < kv.1)) = [] := by
    rw [List.filter_eq_nil_iff]
    intro kv hkv
    simp only [decide_eq_true_eq, not_lt, hc]
    exact lastKey_ub (l.take B) last0 (hsorted.sublist (List.take_sublist B l))
      (fun q hq => hmono q (List.take_subset B l hq)) kv hkv
  have h2 : (l.drop B).filter
      (fun kv => decide (lastKey last0 (l.take B) < kv.1)) = l.drop B := by
    rw [List.filter_eq_self]
    intro kv hkv
    exact decide_eq_true (lastKey_take_lt_drop l last0 B hsorted hB hBlen kv hkv)
  rw [h1, h2, List.nil_append]

/-- Claim C8: a forward primary-key range scan with no terminal, over a
sorted range holding more matching documents than the row-count budget `B`,
stops once the batch accumulator signals exhaustion: the stream is exactly
the first `B` documents (so exactly `B` results), `truncated` is true, and
resuming from `last_considered_key` over the keys beyond it reproduces
exactly the remaining `N - B` documents — the two streams concatenate to
the whole range, with no gaps and no duplicates. -/
theorem rget_batch_truncation_and_resume {K : Type} [LinearOrder K]
    (contents : List (K × Datum)) (range_left : K) (B : Nat)
    (hsorted : contents.Pairwise (fun a b => a.1 < b.1))
    (hleft : ∀ kv ∈ contents, range_left ≤ kv.1)
    (hB : 1 ≤ B) (hN : B < contents.length) :
    (rdb_rget_slice contents range_left B).stream = contents.take B ∧
    (rdb_rget_slice contents range_left B).stream.length = B ∧
    (rdb_rget_slice contents range_left B).truncated = true ∧
    (rget_resume contents range_left B (contents.length - B)).stream = contents.drop B ∧
    (rdb_rget_slice contents range_left B).stream ++
      (rget_resume contents range_left B (contents.length - B)).stream = contents := by
  have hfirst := traversal_exhausts_budget contents [] range_left B 0
    (by omega) (by omega) hsorted hleft
  have hr1 : rdb_rget_slice contents range_left B =
      { stream := contents.take B,
        last_considered_key := lastKey range_left (contents.take B),
        truncated := true } := by
    simp only [rdb_rget_slice]
    rw [Nat.sub_zero] at hfirst
    rw [hfirst]
    simp [Batcher.should_send_batch]
  have hfilter : contents.filter
      (fun kv => decide (lastKey range_left (contents.take B) < kv.1)) =
      contents.drop B :=
    filter_lastKey_take_eq_drop contents range_left B hsorted hleft hB (le_of_lt hN)
  have hdrop_len : (contents.drop B).length = contents.length - B := by
    simp [List.length_drop]
  have hsecond := traversal_consumes_all (contents.drop B) [] 
    (lastKey range_left (contents.take B)) (contents.length - B) 0
    (by omega) (by omega)
    (hsorted.sublist (List.drop_sublist B contents))
    (fun kv hkv => le_of_lt
      (lastKey_take_lt_drop contents range_left B hsorted hB (le_of_lt hN) kv hkv))
  have hr2 : rget_resume contents range_left B (contents.length - B) =
      { stream := contents.drop B,
        last_considered_key := lastKey (lastKey range_left (contents.take B))
          (contents.drop B),
        truncated := true } := by
    simp only [rget_resume, hr1, hfilter]
    simp only [rdb_rget_slice]
    rw [hsecond]
    simp [Batcher.should_send_batch]
  refine ⟨by rw [hr1], by rw [hr1]; simp [List.length_take]; omega,
          by rw [hr1], by rw [hr2], ?_⟩
  rw [hr1, hr2]
  simp [List.take_append_drop]

/-- Witness for claim C8: three documents, budget two; the first batch
returns the first two with `truncated`, and the resumption returns the
third. -/
theorem rget_batch_truncation_and_resume_wit :
    (rdb_rget_slice [((1 : Nat), Datum.null), (2, Datum.num 1), (3, Datum.str "a")]
        (0 : Nat) 2).stream = [(1, Datum.null), (2, Datum.num 1)] ∧
    (rdb_rget_slice [((1 : Nat), Datum.null), (2, Datum.num 1), (3, Datum.str "a")]
        (0 : Nat) 2).truncated = true ∧
    (rget_resume [((1 : Nat), Datum.null), (2, Datum.num 1), (3, Datum.str "a")]
        (0 : Nat) 2 1).stream = [(3, Datum.str "a")] :=
  ⟨(rget_batch_truncation_and_resume
      [((1 : Nat), Datum.null), (2, Datum.num 1), (3, Datum.str "a")] 0 2
      (by decide) (by decide) (by decide) (by decide)).1,
   (rget_batch_truncation_and_resume
      [((1 : Nat), Datum.null), (2, Datum.num 1), (3, Datum.str "a")] 0 2
      (by decide) (by decide) (by decide) (by decide)).2.2.1,
   (rget_batch_truncation_and_resume
      [((1 : Nat), Datum.null), (2, Datum.num 1), (3, Datum.str "a")] 0 2
      (by decide) (by decide) (by decide) (by decide)).2.2.2.1⟩
